import Mathlib

/-!
Verification development for the ownarr repository: a shallow embedding of
the watch-and-reconcile engine (internal/watcher/watcher.go, the enforcer
package, internal/config) together with proofs of the spec's claims.

Strings from the Go source are modelled as `String` / `List Char`; machine
integers as `Nat`/`Int`; buffered channels as explicit lists with a
capacity bound; syscalls (`os.Chown`, `os.Chmod`) as explicit state
updates plus a recorded call trace, with Boolean failure oracles standing
for the I/O errors the calls may return.
-/

namespace Ownarr

/-! ## Go `path/filepath.Match` (used by shouldProcess / shouldExclude)

A faithful translation of Go's `filepath.Match` for Unix
(`Separator = '/'`, no Windows special-casing).  Runes are modelled as
`Char`; the source decodes UTF-8 runes from strings, which at the level of
`List Char` is exactly taking the head character.  Loop functions that Go
writes with mutation are written with a fuel argument initialised to one
more than the length of the list the loop consumes; every iteration of
the corresponding Go loop consumes at least one element of that list, so
the fuel never runs out. -/

/-- `ChunkRes` is the result triple of Go's `matchChunk`:
`err` = `("", false, ErrBadPattern)`, `fail` = `("", false, nil)`,
`ok rest` = `(rest, true, nil)`. -/
inductive ChunkRes where
  | err : ChunkRes
  | fail : ChunkRes
  | ok : List Char → ChunkRes
deriving DecidableEq

/-- The leading-star loop of Go's `scanChunk`:
`for len(pattern) > 0 && pattern[0] == '*' { pattern = pattern[1:]; star = true }`. -/
def stripStars : List Char → Bool × List Char
  | [] => (false, [])
  | c :: rest =>
    if c = '*' then (true, (stripStars rest).2)
    else (false, c :: rest)

/-- The `Scan` loop of Go's `scanChunk`: collect chunk characters until an
unescaped `*` outside a `[...]` range; a `\` skips the next character. -/
def scanBody : List Char → Bool → List Char × List Char
  | [], _ => ([], [])
  | c :: rest, inrange =>
    if c = '\\' then
      match rest with
      | [] => ([c], [])
      | c2 :: rest2 =>
        let r := scanBody rest2 inrange
        (c :: c2 :: r.1, r.2)
    else if c = '[' then
      let r := scanBody rest true
      (c :: r.1, r.2)
    else if c = ']' then
      let r := scanBody rest false
      (c :: r.1, r.2)
    else if c = '*' then
      if inrange then
        let r := scanBody rest inrange
        (c :: r.1, r.2)
      else ([], c :: rest)
    else
      let r := scanBody rest inrange
      (c :: r.1, r.2)

/-- Go's `scanChunk(pattern) (star, chunk, rest)`: strip leading `*`s, then
take the segment up to the next unescaped top-level `*`. -/
def scanChunk (pattern : List Char) : Bool × List Char × List Char :=
  let s := stripStars pattern
  let b := scanBody s.2 false
  (s.1, b.1, b.2)

/-- Go's `getEsc(chunk)`: read one possibly-escaped character of a
character class.  `none` models `ErrBadPattern`. -/
def getEsc : List Char → Option (Char × List Char)
  | [] => none
  | c :: rest =>
    if c = '-' ∨ c = ']' then none
    else if c = '\\' then
      match rest with
      | [] => none
      | c2 :: rest2 => if rest2.isEmpty then none else some (c2, rest2)
    else if rest.isEmpty then none else some (c, rest)

/-- The range-parsing loop inside the `[` case of Go's `matchChunk`:
consume `lo`/`lo-hi` ranges until a closing `]` (which only closes after at
least one range), accumulating whether the rune `r` fell in any range.
`none` models `ErrBadPattern`. -/
def parseRangesF : Nat → Char → List Char → Bool → Nat → Option (Bool × List Char)
  | 0, _, _, _, _ => none
  | fuel + 1, r, chunk, mtch, nrange =>
    if chunk ≠ [] ∧ chunk.headD ' ' = ']' ∧ nrange > 0 then
      some (mtch, chunk.tail)
    else
      match getEsc chunk with
      | none => none
      | some (lo, chunk1) =>
        match chunk1 with
        | '-' :: chunk2 =>
          match getEsc chunk2 with
          | none => none
          | some (hi, chunk3) =>
            parseRangesF fuel r chunk3 (mtch || decide (lo ≤ r ∧ r ≤ hi)) (nrange + 1)
        | _ =>
          parseRangesF fuel r chunk1 (mtch || decide (lo ≤ r ∧ r ≤ lo)) (nrange + 1)

/-- Go's `matchChunk(chunk, s)` loop, with the `failed` flag threaded
explicitly.  When `failed` is set the loop keeps scanning the chunk for
well-formedness but no longer consumes `s`; an unset rune variable in Go
is the zero rune, modelled by `Char.ofNat 0`. -/
def matchChunkF : Nat → Bool → List Char → List Char → ChunkRes
  | 0, _, _, _ => ChunkRes.err
  | fuel + 1, failed0, chunk, s =>
    match chunk with
    | [] => if failed0 then ChunkRes.fail else ChunkRes.ok s
    | c :: rest =>
      let failed := failed0 || s.isEmpty
      if c = '[' then
        let r := if failed then Char.ofNat 0 else s.headD (Char.ofNat 0)
        let s1 := if failed then s else s.tail
        let neg := rest.headD ' ' = '^'
        let chunk1 := if neg then rest.tail else rest
        match parseRangesF (chunk1.length + 1) r chunk1 false 0 with
        | none => ChunkRes.err
        | some (mtch, chunk2) =>
          matchChunkF fuel (failed || (mtch == neg)) chunk2 s1
      else if c = '?' then
        if failed then matchChunkF fuel failed rest s
        else matchChunkF fuel (decide (s.headD ' ' = '/')) rest s.tail
      else if c = '\\' then
        match rest with
        | [] => ChunkRes.err
        | c2 :: rest2 =>
          if failed then matchChunkF fuel failed rest2 s
          else matchChunkF fuel (decide (s.headD ' ' ≠ c2)) rest2 s.tail
      else
        if failed then matchChunkF fuel failed rest s
        else matchChunkF fuel (decide (s.headD ' ' ≠ c)) rest s.tail

/-- Go's `matchChunk(chunk, s)` entry point. -/
def matchChunk (chunk s : List Char) : ChunkRes :=
  matchChunkF (chunk.length + 1) false chunk s

/-- The star-retry loop inside Go's `Match`: try `matchChunk` at each
offset of `name` that is not past a `/`.  `none` models `ErrBadPattern`;
`some none` means no offset matched; `some (some t)` means the outer loop
continues with the remaining name `t`. -/
def tryStar (chunk rest : List Char) : List Char → Option (Option (List Char))
  | [] => some none
  | c :: restName =>
    if c = '/' then some none
    else
      match matchChunk chunk restName with
      | ChunkRes.err => none
      | ChunkRes.ok t =>
        if rest.isEmpty && !t.isEmpty then tryStar chunk rest restName
        else some (some t)
      | ChunkRes.fail => tryStar chunk rest restName

/-- The well-formedness check Go's `Match` runs over the remaining pattern
before returning `false`: `true` means no `ErrBadPattern`. -/
def wellFormedF : Nat → List Char → Bool
  | 0, _ => false
  | fuel + 1, pattern =>
    match pattern with
    | [] => true
    | _ :: _ =>
      let sc := scanChunk pattern
      match matchChunk sc.2.1 [] with
      | ChunkRes.err => false
      | _ => wellFormedF fuel sc.2.2

/-- The `Pattern` loop of Go's `filepath.Match`; the result pair is
`(matched, err != nil)`. -/
def matchF : Nat → List Char → List Char → Bool × Bool
  | 0, _, _ => (false, true)
  | fuel + 1, pattern, name =>
    match pattern with
    | [] => (name.isEmpty, false)
    | _ :: _ =>
      let sc := scanChunk pattern
      let star := sc.1
      let chunk := sc.2.1
      let rest := sc.2.2
      if star && chunk.isEmpty then (!(name.contains '/'), false)
      else
        match matchChunk chunk name with
        | ChunkRes.err => (false, true)
        | ChunkRes.ok t =>
          if t.isEmpty || !rest.isEmpty then matchF fuel rest t
          else if star then
            match tryStar chunk rest name with
            | none => (false, true)
            | some (some t2) => matchF fuel rest t2
            | some none => (false, !wellFormedF (rest.length + 1) rest)
          else (false, !wellFormedF (rest.length + 1) rest)
        | ChunkRes.fail =>
          if star then
            match tryStar chunk rest name with
            | none => (false, true)
            | some (some t2) => matchF fuel rest t2
            | some none => (false, !wellFormedF (rest.length + 1) rest)
          else (false, !wellFormedF (rest.length + 1) rest)

/-- Go's `filepath.Match(pattern, name)` on `List Char`. -/
def goMatchL (pattern name : List Char) : Bool × Bool :=
  matchF (pattern.length + 1) pattern name

/-- `matched, _ := filepath.Match(pattern, filename)` — the Boolean the
watcher actually uses; a malformed pattern therefore counts as
non-matching. -/
def matchPattern (pattern : String) (filename : List Char) : Bool :=
  (goMatchL pattern.toList filename).1

/-- Go's `filepath.Base` for Unix: strip trailing slashes, take everything
after the last remaining slash; empty input gives ".", all-slash input
gives "/". -/
def goBase (path : List Char) : List Char :=
  if path.isEmpty then ['.']
  else
    let p := (path.reverse.dropWhile (fun c => c = '/')).reverse
    let q := (p.reverse.takeWhile (fun c => c ≠ '/')).reverse
    if q.isEmpty then ['/'] else q

/-! ## Watcher data model (internal/watcher, internal/config of the koanf variant) -/

/-- `config.WatchDir` — one watched directory (koanf/YAML variant). -/
structure WatchDir where
  Path : String
  Recursive : Bool
  Exclude : List String
  Include : List String
  FileMode : String
  DirMode : String
deriving DecidableEq

/-- The per-pattern loop bodies of `shouldProcess` / `shouldExclude`:
`for _, pattern := range patterns { if matched, _ := filepath.Match(pattern, filename); matched { return ... } }`. -/
def anyPatternMatches (patterns : List String) (filename : List Char) : Bool :=
  match patterns with
  | [] => false
  | p :: rest =>
    if matchPattern p filename then true else anyPatternMatches rest filename

/-- `(*Watcher).shouldProcess(path, watchDir)`: exclude patterns first
(return false on a match), then include patterns (must match one when the
include list is non-empty), else true. -/
def shouldProcess (path : String) (watchDir : WatchDir) : Bool :=
  let filename := goBase path.toList
  if anyPatternMatches watchDir.Exclude filename then false
  else if watchDir.Include.length > 0 then
    anyPatternMatches watchDir.Include filename
  else true

/-- `(*Watcher).shouldExclude(path, watchDir)`: does the final path
segment match some exclude pattern. -/
def shouldExclude (path : String) (watchDir : WatchDir) : Bool :=
  anyPatternMatches watchDir.Exclude (goBase path.toList)

/-- Go's `strings.HasPrefix(s, pre)`: `pre` is a plain leading substring
of `s`, with no path-separator-boundary requirement. -/
def hasPrefix (s pre : String) : Bool := pre.data.isPrefixOf s.data

/-- `(*Watcher).findWatchDir(path)`: first configured WatchDir whose Path
is a plain `strings.HasPrefix` prefix of the event path. -/
def findWatchDir (watchDirs : List WatchDir) (path : String) : Option WatchDir :=
  match watchDirs with
  | [] => none
  | wd :: rest =>
    if hasPrefix path wd.Path then some wd else findWatchDir rest path

/-- What `processEvents` does with one fsnotify event path before the
queue send: `continue` when no WatchDir claims the path (discarded),
`continue` when `shouldProcess` filters it, otherwise forward it. -/
inductive Disposition where
  | discarded : Disposition
  | filtered : Disposition
  | forwarded : WatchDir → Disposition
deriving DecidableEq

/-- The routing stage of `(*Watcher).processEvents` for a single event. -/
def routeEvent (watchDirs : List WatchDir) (path : String) : Disposition :=
  match findWatchDir watchDirs path with
  | none => Disposition.discarded
  | some wd =>
    if shouldProcess path wd then Disposition.forwarded wd
    else Disposition.filtered

/-! ## The bounded event pipeline (watcher.New and the queue sends)

`New` creates `events: make(chan Event, 100)` and `errors: make(chan
error, 10)`.  Producers send with `select { case ch <- e: ... default:
log.Warn("... full, dropping ...") }`.  A buffered Go channel with no
consumer is a list of at most `cap` retained elements; the non-blocking
send is the total function `trySend` (it always returns immediately —
there is no blocking branch to model). -/

/-- Capacity of the events channel in `watcher.New`. -/
def eventChanCap : Nat := 100

/-- Capacity of the errors channel in `watcher.New`. -/
def errorChanCap : Nat := 10

/-- Non-blocking send on a buffered channel with capacity `cap`:
`(new buffer, dropped?)`; dropping records one warning. -/
def trySend {α : Type} (cap : Nat) (q : List α) (e : α) : List α × Bool :=
  if q.length < cap then (q ++ [e], false) else (q, true)

/-- Buffer contents and number of drop warnings after a producer run. -/
structure SendStats (α : Type) where
  queue : List α
  drops : Nat
deriving DecidableEq

/-- A producer attempting a sequence of non-blocking sends with no
consumer draining the channel. -/
def sendAll {α : Type} (cap : Nat) (s0 : SendStats α) (es : List α) : SendStats α :=
  es.foldl
    (fun s e =>
      let r := trySend cap s.queue e
      ⟨r.1, s.drops + (if r.2 then 1 else 0)⟩)
    s0

/-! ## The reconciliation algorithm (enforcer.enforceFile / enforceTree)

`enforceFile(folder, path, info)` reads `info.Sys().(*syscall.Stat_t)`
and issues `os.Chown` / `os.Chmod`.  A file's observable state is its
mode bits plus the stat structure when one is available; the two syscalls
are modelled as state updates with Boolean failure oracles, and the calls
actually issued are recorded in order. -/

/-- `config.Folder` (env/YAML variant used by the enforcer). -/
structure Folder where
  Path : String
  UID : Nat
  GID : Nat
  Mode : Nat
  FileMode : Nat
  DirMode : Nat
deriving DecidableEq

/-- The fields of `syscall.Stat_t` that `enforceFile` reads. -/
structure Stat_t where
  Uid : Nat
  Gid : Nat
deriving DecidableEq

/-- Observable state of one filesystem entry: `mode` is `info.Mode()`;
`sys` is `info.Sys().(*syscall.Stat_t)`, `none` when the type assertion
fails. -/
structure FileState where
  mode : Nat
  sys : Option Stat_t
deriving DecidableEq

/-- A syscall issued by `enforceFile`, in issue order. -/
inductive Syscall where
  | chown : Nat → Nat → Syscall
  | chmod : Nat → Syscall
deriving DecidableEq

/-- Result of one `enforceFile` call: the returned `(changed, err)` pair,
the entry's state afterwards, and the syscalls issued. -/
structure EnforceOutcome where
  changed : Bool
  err : Option String
  state : FileState
  calls : List Syscall
deriving DecidableEq

/-- `os.ModePerm` = 0o777.  Since 0o777 = 2^9 - 1, `m & os.ModePerm`
equals `m % 0o1000`. -/
def permBits (m : Nat) : Nat := m % 0o1000

/-- Effect of `os.Chmod(path, folder.Mode)` on the stored mode: the
permission bits are replaced by `folder.Mode & os.ModePerm`, the
non-permission bits are untouched. -/
def chmodApply (m target : Nat) : Nat := permBits target + m / 0o1000 * 0o1000

/-- `(*Enforcer).enforceFile(folder, path, info)` (identical in both
historical variants, part_006 and part_008 of the source):

* `stat, ok := info.Sys().(*syscall.Stat_t); if !ok { return false, nil }`;
* if uid or gid differs, `os.Chown(path, folder.UID, folder.GID)`,
  returning `(false, chown-err)` on failure, else `changed = true`;
* if `info.Mode() & ModePerm != folder.Mode & ModePerm`,
  `os.Chmod(path, folder.Mode)`, returning `(false, chmod-err)` on
  failure, else `changed = true`;
* return `(changed, nil)`.

The two sequential `if` blocks with early error returns are written here
as nested branches; `chownFails`/`chmodFails` are the failure oracles for
the two syscalls. -/
def enforceFile (folder : Folder) (st : FileState) (chownFails chmodFails : Bool) :
    EnforceOutcome :=
  match st.sys with
  | none => ⟨false, none, st, []⟩
  | some stat =>
    if stat.Uid ≠ folder.UID ∨ stat.Gid ≠ folder.GID then
      if chownFails then
        ⟨false, some "chown", st, [Syscall.chown folder.UID folder.GID]⟩
      else
        let st1 : FileState := ⟨st.mode, some ⟨folder.UID, folder.GID⟩⟩
        if permBits st.mode ≠ permBits folder.Mode then
          if chmodFails then
            ⟨false, some "chmod", st1,
              [Syscall.chown folder.UID folder.GID, Syscall.chmod folder.Mode]⟩
          else
            ⟨true, none, ⟨chmodApply st.mode folder.Mode, st1.sys⟩,
              [Syscall.chown folder.UID folder.GID, Syscall.chmod folder.Mode]⟩
        else ⟨true, none, st1, [Syscall.chown folder.UID folder.GID]⟩
    else
      if permBits st.mode ≠ permBits folder.Mode then
        if chmodFails then ⟨false, some "chmod", st, [Syscall.chmod folder.Mode]⟩
        else
          ⟨true, none, ⟨chmodApply st.mode folder.Mode, st.sys⟩,
            [Syscall.chmod folder.Mode]⟩
      else ⟨false, none, st, []⟩

/-- An entry is compliant with the folder policy exactly when the code's
two checks both pass: the stat structure carries the target uid/gid and
the permission bits equal the target's. -/
def compliant (folder : Folder) (st : FileState) : Prop :=
  st.sys = some ⟨folder.UID, folder.GID⟩ ∧ permBits st.mode = permBits folder.Mode

instance (folder : Folder) (st : FileState) : Decidable (compliant folder st) := by
  unfold compliant; infer_instance

/-! ## enforceTree

`enforceTree` runs `filepath.Walk(folder.Path, callback)`; the callback
always returns `nil`, so the walk visits every entry.  The walk is
modelled as the list of callback invocations in visit order: either an
access error (`err != nil` argument) or an entry with its state and
syscall failure oracles. -/

/-- One `filepath.Walk` callback invocation inside `enforceTree`. -/
inductive WalkItem where
  | accessErr : String → WalkItem
  | entry : String → FileState → Bool → Bool → WalkItem
deriving DecidableEq

/-- `ReconciliationResult`: the `fixed` / `skipped` / `failed` counters of
`enforceTree`. -/
structure TreeResult where
  fixed : Nat
  skipped : Nat
  failed : Nat
deriving DecidableEq

/-- Which counter one callback invocation increments. -/
inductive EntryClass where
  | fixedE : EntryClass
  | skippedE : EntryClass
  | failedE : EntryClass
deriving DecidableEq

/-- Classification performed by the `enforceTree` callback: an access
error or an `enforceFile` error counts as failed; otherwise `changed`
picks fixed versus skipped. -/
def classify (folder : Folder) : WalkItem → EntryClass
  | WalkItem.accessErr _ => EntryClass.failedE
  | WalkItem.entry _ st cf cm =>
    let out := enforceFile folder st cf cm
    if out.err.isSome then EntryClass.failedE
    else if out.changed then EntryClass.fixedE
    else EntryClass.skippedE

/-- One step of the `enforceTree` callback: bump the counter chosen by
`classify` and return `nil` (the walk always continues). -/
def treeStep (folder : Folder) (acc : TreeResult) (item : WalkItem) : TreeResult :=
  match classify folder item with
  | EntryClass.failedE => ⟨acc.fixed, acc.skipped, acc.failed + 1⟩
  | EntryClass.fixedE => ⟨acc.fixed + 1, acc.skipped, acc.failed⟩
  | EntryClass.skippedE => ⟨acc.fixed, acc.skipped + 1, acc.failed⟩

/-- `(*Enforcer).enforceTree(folder)` over a given walk sequence. -/
def enforceTree (folder : Folder) (items : List WalkItem) : TreeResult :=
  items.foldl (treeStep folder) ⟨0, 0, 0⟩

/-! ## Configuration validation (koanf variant) and the polling decision

`(*Config).validate` rejects `PollInterval <= 0` and normalises each
WatchDir (empty path is an error; empty FileMode/DirMode default to
"0644"/"0755").  The `filepath.Abs` conversion is environment-dependent
(it resolves against the process working directory) and is the identity
on the already-absolute paths the spec requires, so it is omitted here.
`(*Watcher).Start` launches the polling goroutine only under
`w.config.PollInterval > 0`. -/

/-- `config.Config` of the koanf variant (the fields the claims use). -/
structure KoanfConfig where
  LogLevel : String
  PollInterval : Int
  WatchDirs : List WatchDir
deriving DecidableEq

/-- Per-WatchDir part of `(*Config).validate`: required path, default
modes. -/
def validateDir (wd : WatchDir) : Except String WatchDir :=
  if wd.Path = "" then Except.error "path is required"
  else
    Except.ok
      { wd with
        FileMode := if wd.FileMode = "" then "0644" else wd.FileMode,
        DirMode := if wd.DirMode = "" then "0755" else wd.DirMode }

/-- The WatchDir loop of `(*Config).validate`. -/
def validateDirs : List WatchDir → Except String (List WatchDir)
  | [] => Except.ok []
  | wd :: rest =>
    match validateDir wd with
    | Except.error e => Except.error e
    | Except.ok w =>
      match validateDirs rest with
      | Except.error e => Except.error e
      | Except.ok ws => Except.ok (w :: ws)

/-- `(*Config).validate`: `poll_interval` must be greater than 0, then
each WatchDir is checked and normalised. -/
def validate (c : KoanfConfig) : Except String KoanfConfig :=
  if c.PollInterval ≤ 0 then
    Except.error "poll_interval must be greater than 0"
  else
    match validateDirs c.WatchDirs with
    | Except.error e => Except.error e
    | Except.ok ws => Except.ok { c with WatchDirs := ws }

/-- The polling-goroutine guard in `(*Watcher).Start`:
`if w.config.PollInterval > 0 { go w.startPolling(ctx) }`. -/
def pollingStarted (c : KoanfConfig) : Bool := c.PollInterval > 0

/-! ## Watch registration (`addWatch`) and `Start`'s registration loop

`addWatch` stats the watch path: `os.IsNotExist` is a logged warning and
a `nil` return (no watch registered); any other stat error, or an error
from `fsWatcher.Add(watchDir.Path)`, is returned to the caller.  `Start`
runs `addWatch` for every configured WatchDir and returns a wrapped error
on the first failure, before the event-processing goroutine is launched;
`main` then exits fatally.  The environment of one registration attempt
is the stat result for the root path and whether the underlying
`fsWatcher.Add` call on it fails (failures on subdirectory adds during
the recursive walk are soft warnings and do not change the outcome). -/

/-- Result of `os.Stat(watchDir.Path)` as `addWatch` distinguishes it. -/
inductive StatResult where
  | statOk : StatResult
  | notExist : StatResult
  | otherErr : StatResult
deriving DecidableEq

/-- Environment of one `addWatch` call. -/
structure DirEnv where
  watchDir : WatchDir
  stat : StatResult
  rootAddFails : Bool
deriving DecidableEq

/-- Observable outcome of a successful (`nil`-returning) `addWatch`. -/
inductive AddWatchOutcome where
  | warnedMissing : AddWatchOutcome
  | watching : AddWatchOutcome
deriving DecidableEq

/-- `(*Watcher).addWatch(watchDir)`. -/
def addWatch (d : DirEnv) : Except String AddWatchOutcome :=
  match d.stat with
  | StatResult.notExist => Except.ok AddWatchOutcome.warnedMissing
  | StatResult.otherErr => Except.error "stat"
  | StatResult.statOk =>
    if d.rootAddFails then Except.error "add"
    else Except.ok AddWatchOutcome.watching

/-- The registration loop at the top of `(*Watcher).Start`: on the first
`addWatch` error it returns `failed to add watch ...` and nothing else
starts. -/
def startWatches : List DirEnv → Except String (List AddWatchOutcome)
  | [] => Except.ok []
  | d :: rest =>
    match addWatch d with
    | Except.error e => Except.error ("failed to add watch: " ++ e)
    | Except.ok r =>
      match startWatches rest with
      | Except.error e => Except.error e
      | Except.ok rs => Except.ok (r :: rs)

/-- Whether `Start` reaches the point where the event-processing (and
polling) goroutines are launched — `main` calls `Fatal` when `Start`
returns an error. -/
def systemStarted (dirs : List DirEnv) : Bool :=
  match startWatches dirs with
  | Except.ok _ => true
  | Except.error _ => false

/-! ## Directory-tree walks: registration versus the poll pass

`filepath.Walk` visits a directory before its children and skips a
subtree exactly when the callback returns `filepath.SkipDir`.  A tree is
modelled inductively; paths are built the way `filepath.Walk` joins them
(`parent ++ "/" ++ name`, the root keeping its configured path).

* In `addWatch`'s recursive walk the callback returns `SkipDir` for a
  non-root directory with `shouldExclude` true, otherwise registers a
  watch for every non-root directory.
* In `checkDirectoryPermissions` (the poll pass) the callback returns
  `nil` for every entry — entries failing `shouldProcess` are merely not
  emitted as events, the walk still descends into them.  The queue send
  of each emitted event uses the non-blocking send modelled by `trySend`;
  the walks below record the emission attempts in visit order. -/

/-- A filesystem subtree. -/
inductive FSNode where
  | file : String → FSNode
  | dir : String → List FSNode → FSNode

/-- Name of a node (the last path segment `filepath.Walk` joins on). -/
def nodeName : FSNode → String
  | FSNode.file n => n
  | FSNode.dir n _ => n

/-- `filepath.Join(parent, name)` for clean absolute parents. -/
def childPath (p name : String) : String := p ++ "/" ++ name

mutual
/-- Visit of one node in `addWatch`'s recursive walk at full path `p`:
returns `(visited paths, watch-registered paths)`.  The root itself is
added before the walk, not inside it. -/
def addWalkVisit (wd : WatchDir) (root p : String) : FSNode → List String × List String
  | FSNode.file _ => ([p], [])
  | FSNode.dir _ children =>
    if p ≠ root ∧ shouldExclude p wd = true then ([p], [])
    else
      let sub := addWalkList wd root p children
      (p :: sub.1, (if p = root then [] else [p]) ++ sub.2)

/-- Children loop of `addWalkVisit`. -/
def addWalkList (wd : WatchDir) (root p : String) : List FSNode → List String × List String
  | [] => ([], [])
  | c :: cs =>
    let r := addWalkVisit wd root (childPath p (nodeName c)) c
    let rs := addWalkList wd root p cs
    (r.1 ++ rs.1, r.2 ++ rs.2)
end

mutual
/-- Visit of one node in the poll pass (`checkDirectoryPermissions`) at
full path `p`: returns `(visited paths, event paths emitted)`.  The
callback never returns `SkipDir`, so children are always walked. -/
def pollVisit (wd : WatchDir) (p : String) : FSNode → List String × List String
  | FSNode.file _ => ([p], if shouldProcess p wd then [p] else [])
  | FSNode.dir _ children =>
    let sub := pollList wd p children
    (p :: sub.1, (if shouldProcess p wd then [p] else []) ++ sub.2)

/-- Children loop of `pollVisit`. -/
def pollList (wd : WatchDir) (p : String) : List FSNode → List String × List String
  | [] => ([], [])
  | c :: cs =>
    let r := pollVisit wd (childPath p (nodeName c)) c
    let rs := pollList wd p cs
    (r.1 ++ rs.1, r.2 ++ rs.2)
end

/-! ## Helper lemmas -/

/-- The pattern loop returns true exactly when some pattern in the list
matches. -/
theorem anyPatternMatches_iff (ps : List String) (f : List Char) :
    anyPatternMatches ps f = true ↔ ∃ p ∈ ps, matchPattern p f = true := by
  induction ps with
  | nil => simp [anyPatternMatches]
  | cons p rest ih =>
    by_cases h : matchPattern p f = true
    · simp [anyPatternMatches, h]
    · simp [anyPatternMatches, h, ih]

/-- `os.Chmod` leaves the permission bits at the target's permission
bits. -/
theorem permBits_chmodApply (m t : Nat) : permBits (chmodApply m t) = permBits t := by
  simp only [permBits, chmodApply]
  omega

/-- On a compliant entry `enforceFile` changes nothing, reports no error,
and issues no syscall. -/
theorem enforceFile_of_compliant (folder : Folder) (st : FileState)
    (h : compliant folder st) :
    enforceFile folder st false false = ⟨false, none, st, []⟩ := by
  obtain ⟨h1, h2⟩ := h
  simp [enforceFile, h1, h2]

/-- On an entry with a stat structure that is not compliant,
`enforceFile` (with succeeding syscalls) reports a change, no error, and
leaves the entry compliant. -/
theorem enforceFile_fixes (folder : Folder) (st : FileState) (stat : Stat_t)
    (hs : st.sys = some stat) (h : ¬ compliant folder st) :
    (enforceFile folder st false false).changed = true
    ∧ (enforceFile folder st false false).err = none
    ∧ compliant folder (enforceFile folder st false false).state := by
  by_cases ho : stat.Uid = folder.UID ∧ stat.Gid = folder.GID
  · by_cases hm : permBits st.mode = permBits folder.Mode
    · exact absurd ⟨by rw [hs]; cases stat; simp_all, hm⟩ h
    · have hcond : ¬ (stat.Uid ≠ folder.UID ∨ stat.Gid ≠ folder.GID) := by tauto
      refine ⟨?_, ?_, ?_⟩ <;>
        · simp [enforceFile, hs, hcond, hm, compliant, permBits_chmodApply]
          try (cases stat; simp_all)
  · have hcond : stat.Uid ≠ folder.UID ∨ stat.Gid ≠ folder.GID := by tauto
    by_cases hm : permBits st.mode = permBits folder.Mode
    · refine ⟨?_, ?_, ?_⟩ <;>
        simp [enforceFile, hs, hcond, hm, compliant, permBits_chmodApply]
    · refine ⟨?_, ?_, ?_⟩ <;>
        simp [enforceFile, hs, hcond, hm, compliant, permBits_chmodApply]

/-! ## Claim theorems -/

/-- Claim C1: an already-compliant entry yields changed=false with no
ownership or mode call, and a second run again yields changed=false; an
entry whose owner or mode differs from target is brought into compliance
by a single `enforceFile` call returning changed=true, and the
immediately following call returns changed=false with no calls issued. -/
theorem enforceFile_idempotent_convergent (folder : Folder) (st : FileState) :
    (compliant folder st →
       enforceFile folder st false false = ⟨false, none, st, []⟩
       ∧ enforceFile folder (enforceFile folder st false false).state false false
           = ⟨false, none, st, []⟩)
    ∧ (∀ stat, st.sys = some stat → ¬ compliant folder st →
       (enforceFile folder st false false).changed = true
       ∧ compliant folder (enforceFile folder st false false).state
       ∧ enforceFile folder (enforceFile folder st false false).state false false
           = ⟨false, none, (enforceFile folder st false false).state, []⟩) := by
  constructor
  · intro h
    have h1 := enforceFile_of_compliant folder st h
    refine ⟨h1, ?_⟩
    rw [h1]
    rw [enforceFile_of_compliant folder st h]
  · intro stat hs h
    obtain ⟨hc, he, hcomp⟩ := enforceFile_fixes folder st stat hs h
    exact ⟨hc, hcomp,
      enforceFile_of_compliant folder (enforceFile folder st false false).state hcomp⟩

/-- Claim C1 witness: a file owned 0:0 with mode 0o777 under a
uid=1000/gid=1000, mode=0o644 folder is fixed in one call (changed=true),
and the immediately following call reports changed=false; a compliant
file reports changed=false with no syscalls. -/
theorem enforceFile_idempotent_convergent_witness :
    ((enforceFile ⟨"/d", 1000, 1000, 0o644, 0o644, 0o755⟩ ⟨0o777, some ⟨0, 0⟩⟩
        false false).changed = true)
    ∧ (enforceFile ⟨"/d", 1000, 1000, 0o644, 0o644, 0o755⟩
        (enforceFile ⟨"/d", 1000, 1000, 0o644, 0o644, 0o755⟩ ⟨0o777, some ⟨0, 0⟩⟩
          false false).state false false).changed = false
    ∧ enforceFile ⟨"/d", 1000, 1000, 0o644, 0o644, 0o755⟩ ⟨0o644, some ⟨1000, 1000⟩⟩
        false false = ⟨false, none, ⟨0o644, some ⟨1000, 1000⟩⟩, []⟩ := by
  refine ⟨?_, ?_, ?_⟩
  · exact ((enforceFile_idempotent_convergent _ _).2 ⟨0, 0⟩ rfl (by decide)).1
  · have h := ((enforceFile_idempotent_convergent
      ⟨"/d", 1000, 1000, 0o644, 0o644, 0o755⟩ ⟨0o777, some ⟨0, 0⟩⟩).2 ⟨0, 0⟩ rfl
      (by decide)).2.2
    rw [h]
  · exact ((enforceFile_idempotent_convergent _ _).1 (by decide)).1

/-- Claim C2: `shouldProcess` returns false whenever the path's final
segment matches an exclude pattern (exclude wins even over an identical
include pattern); otherwise with a non-empty include set it returns true
exactly when some include pattern matches, and with an empty include set
it returns true. -/
theorem shouldProcess_exclude_include (path : String) (wd : WatchDir) :
    ((∃ p ∈ wd.Exclude, matchPattern p (goBase path.toList) = true) →
       shouldProcess path wd = false)
    ∧ ((¬ ∃ p ∈ wd.Exclude, matchPattern p (goBase path.toList) = true) →
       (wd.Include ≠ [] →
          (shouldProcess path wd = true ↔
            ∃ p ∈ wd.Include, matchPattern p (goBase path.toList) = true))
       ∧ (wd.Include = [] → shouldProcess path wd = true)) := by
  constructor
  · intro h
    have hx : anyPatternMatches wd.Exclude (goBase path.data) = true :=
      (anyPatternMatches_iff _ _).2 h
    simp [shouldProcess, hx]
  · intro h
    have hx : anyPatternMatches wd.Exclude (goBase path.data) = false := by
      cases hv : anyPatternMatches wd.Exclude (goBase path.data)
      · rfl
      · exact absurd ((anyPatternMatches_iff _ _).1 hv) h
    constructor
    · intro hne
      have hpos : 0 < wd.Include.length := List.length_pos.2 hne
      have heq : shouldProcess path wd = anyPatternMatches wd.Include (goBase path.data) := by
        simp [shouldProcess, hx, hpos]
      rw [heq]
      exact anyPatternMatches_iff _ _
    · intro he
      simp [shouldProcess, hx, he]

/-- Claim C2 witness: with exclude=["*.tmp"] and include=["*.tmp"], path
"/tmp/test.tmp" is rejected (exclude wins); with empty patterns,
"/tmp/a.mp4" is accepted. -/
theorem shouldProcess_exclude_include_witness :
    shouldProcess "/tmp/test.tmp" ⟨"/tmp", true, ["*.tmp"], ["*.tmp"], "0644", "0755"⟩
      = false
    ∧ shouldProcess "/tmp/a.mp4" ⟨"/tmp", true, [], [], "0644", "0755"⟩ = true := by
  constructor
  · exact (shouldProcess_exclude_include "/tmp/test.tmp"
      ⟨"/tmp", true, ["*.tmp"], ["*.tmp"], "0644", "0755"⟩).1 (by decide)
  · exact (((shouldProcess_exclude_include "/tmp/a.mp4"
      ⟨"/tmp", true, [], [], "0644", "0755"⟩).2 (by decide)).2 rfl)

/-- Claim C6: when the entry's uid or gid differs from target, the
ownership-change call is issued first (ahead of any mode call), and when
the ownership change fails the error is returned with no mode-change call
attempted. -/
theorem chown_precedes_chmod (folder : Folder) (st : FileState) (stat : Stat_t)
    (hs : st.sys = some stat)
    (h : stat.Uid ≠ folder.UID ∨ stat.Gid ≠ folder.GID) :
    (∀ cf cm, (enforceFile folder st cf cm).calls.head?
        = some (Syscall.chown folder.UID folder.GID))
    ∧ (∀ cm, enforceFile folder st true cm
        = ⟨false, some "chown", st, [Syscall.chown folder.UID folder.GID]⟩) := by
  constructor
  · intro cf cm
    cases cf <;> cases cm <;>
      by_cases hm : permBits st.mode = permBits folder.Mode <;>
        simp [enforceFile, hs, h, hm]
  · intro cm
    simp [enforceFile, hs, h]

/-- Claim C6 witness: for a folder targeting 1000:1000 and a file owned
0:0, the first syscall is chown, and with a failing chown the result is
the chown error with only the chown call attempted. -/
theorem chown_precedes_chmod_witness :
    (enforceFile ⟨"/d", 1000, 1000, 0o644, 0o644, 0o755⟩ ⟨0o777, some ⟨0, 0⟩⟩
        false false).calls.head? = some (Syscall.chown 1000 1000)
    ∧ enforceFile ⟨"/d", 1000, 1000, 0o644, 0o644, 0o755⟩ ⟨0o777, some ⟨0, 0⟩⟩
        true false
        = ⟨false, some "chown", ⟨0o777, some ⟨0, 0⟩⟩, [Syscall.chown 1000 1000]⟩ := by
  have h := chown_precedes_chmod ⟨"/d", 1000, 1000, 0o644, 0o644, 0o755⟩
    ⟨0o777, some ⟨0, 0⟩⟩ ⟨0, 0⟩ rfl (by decide)
  exact ⟨h.1 false false, h.2 false⟩

/-- Claim C10: an entry whose `FileInfo.Sys()` is not a
`*syscall.Stat_t` yields changed=false and a nil error with no syscall
issued, and `enforceTree` counts it as skipped. -/
theorem missing_stat_counts_skipped (folder : Folder) (st : FileState)
    (cf cm : Bool) (p : String) (h : st.sys = none) :
    enforceFile folder st cf cm = ⟨false, none, st, []⟩
    ∧ classify folder (WalkItem.entry p st cf cm) = EntryClass.skippedE
    ∧ enforceTree folder [WalkItem.entry p st cf cm] = ⟨0, 1, 0⟩ := by
  have h1 : enforceFile folder st cf cm = ⟨false, none, st, []⟩ := by
    simp [enforceFile, h]
  refine ⟨h1, ?_, ?_⟩
  · simp [classify, h1]
  · simp [enforceTree, treeStep, classify, h1]

/-- Claim C10 witness: a stat-less entry under a concrete folder is
skipped. -/
theorem missing_stat_counts_skipped_witness :
    enforceFile ⟨"/d", 1000, 1000, 0o644, 0o644, 0o755⟩ ⟨0o777, none⟩ true true
      = ⟨false, none, ⟨0o777, none⟩, []⟩
    ∧ enforceTree ⟨"/d", 1000, 1000, 0o644, 0o644, 0o755⟩
        [WalkItem.entry "/d/x" ⟨0o777, none⟩ true true] = ⟨0, 1, 0⟩ := by
  have h := missing_stat_counts_skipped ⟨"/d", 1000, 1000, 0o644, 0o644, 0o755⟩
    ⟨0o777, none⟩ true true "/d/x" rfl
  exact ⟨h.1, h.2.2⟩

/-- The `enforceTree` fold computes the three per-class counts on top of
any starting accumulator. -/
theorem enforceTree_foldl_counts (folder : Folder) (items : List WalkItem)
    (acc : TreeResult) :
    items.foldl (treeStep folder) acc =
      ⟨acc.fixed + (items.countP fun it => decide (classify folder it = EntryClass.fixedE)),
       acc.skipped + (items.countP fun it => decide (classify folder it = EntryClass.skippedE)),
       acc.failed + (items.countP fun it => decide (classify folder it = EntryClass.failedE))⟩ := by
  induction items generalizing acc with
  | nil => simp
  | cons it rest ih =>
    rw [List.foldl_cons, ih]
    rcases hc : classify folder it with _ | _ | _ <;>
      simp [treeStep, hc, List.countP_cons] <;> omega

/-- Every walk item lands in exactly one of the three counters. -/
theorem classify_count_partition (folder : Folder) (items : List WalkItem) :
    (items.countP fun it => decide (classify folder it = EntryClass.fixedE))
    + (items.countP fun it => decide (classify folder it = EntryClass.skippedE))
    + (items.countP fun it => decide (classify folder it = EntryClass.failedE))
    = items.length := by
  induction items with
  | nil => simp
  | cons it rest ih =>
    rcases hc : classify folder it with _ | _ | _ <;>
      simp [List.countP_cons, hc] <;> omega

/-- Claim C3: when exactly one walk item raises an inspection or
correction error, `enforceTree` still processes every item — the three
counters sum to N — and reports exactly 1 failed with the remaining N−1
split between fixed and skipped; no error aborts the fold. -/
theorem enforceTree_resilient (folder : Folder) (items : List WalkItem)
    (h : (items.countP fun it => decide (classify folder it = EntryClass.failedE)) = 1) :
    (enforceTree folder items).failed = 1
    ∧ (enforceTree folder items).fixed + (enforceTree folder items).skipped
        = items.length - 1
    ∧ (enforceTree folder items).fixed + (enforceTree folder items).skipped
        + (enforceTree folder items).failed = items.length := by
  have hp := classify_count_partition folder items
  unfold enforceTree
  rw [enforceTree_foldl_counts]
  refine ⟨by simpa using h, ?_, ?_⟩ <;> simp <;> omega

/-- Claim C3 witness: a three-entry walk (a compliant entry, an access
error, a drifted entry) yields fixed=1, skipped=1, failed=1. -/
theorem enforceTree_resilient_witness :
    enforceTree ⟨"/d", 1000, 1000, 0o644, 0o644, 0o755⟩
      [WalkItem.entry "/d" ⟨0o644, some ⟨1000, 1000⟩⟩ false false,
       WalkItem.accessErr "/d/bad",
       WalkItem.entry "/d/x" ⟨0o777, some ⟨0, 0⟩⟩ false false]
      = ⟨1, 1, 1⟩
    ∧ (enforceTree ⟨"/d", 1000, 1000, 0o644, 0o644, 0o755⟩
        [WalkItem.entry "/d" ⟨0o644, some ⟨1000, 1000⟩⟩ false false,
         WalkItem.accessErr "/d/bad",
         WalkItem.entry "/d/x" ⟨0o777, some ⟨0, 0⟩⟩ false false]).failed = 1 := by
  constructor
  · decide
  · exact (enforceTree_resilient ⟨"/d", 1000, 1000, 0o644, 0o644, 0o755⟩
      [WalkItem.entry "/d" ⟨0o644, some ⟨1000, 1000⟩⟩ false false,
       WalkItem.accessErr "/d/bad",
       WalkItem.entry "/d/x" ⟨0o777, some ⟨0, 0⟩⟩ false false] (by decide)).1

/-- Contents and drop count of a bounded non-blocking producer run,
starting from any buffer within capacity. -/
theorem sendAll_spec {α : Type} (cap : Nat) (es : List α) (q : List α) (d : Nat)
    (h : q.length ≤ cap) :
    (sendAll cap ⟨q, d⟩ es).queue = q ++ es.take (cap - q.length)
    ∧ (sendAll cap ⟨q, d⟩ es).drops = d + (es.length - (cap - q.length)) := by
  induction es generalizing q d with
  | nil => simp [sendAll]
  | cons e rest ih =>
    by_cases hlt : q.length < cap
    · have hstep : sendAll cap ⟨q, d⟩ (e :: rest) = sendAll cap ⟨q ++ [e], d⟩ rest := by
        simp [sendAll, trySend, hlt]
      have hlen : (q ++ [e]).length ≤ cap := by
        simp
        omega
      obtain ⟨h1, h2⟩ := ih (q ++ [e]) d hlen
      rw [hstep, h1, h2]
      have hsub : cap - q.length = (cap - (q.length + 1)) + 1 := by omega
      constructor
      · rw [hsub]
        simp [List.take_succ_cons]
      · simp
        omega
    · have hq : q.length = cap := by omega
      have hstep : sendAll cap ⟨q, d⟩ (e :: rest) = sendAll cap ⟨q, d + 1⟩ rest := by
        simp [sendAll, trySend, hlt]
      obtain ⟨h1, h2⟩ := ih q (d + 1) h
      rw [hstep, h1, h2]
      constructor
      · simp [hq]
      · simp [hq]
        omega

/-- Claim C4: the event queue is created with capacity 100 and the error
queue with capacity 10; a non-blocking send never grows the buffer past
capacity; and a producer pushing 101 events into the empty event queue
with no consumer retains exactly the first 100, drops the extra one, and
records exactly one drop warning (the send is a total function — there is
no blocking branch). -/
theorem pipeline_capacity_backpressure :
    eventChanCap = 100 ∧ errorChanCap = 10
    ∧ (∀ (α : Type) (q : List α) (e : α), q.length ≤ eventChanCap →
         (trySend eventChanCap q e).1.length ≤ eventChanCap)
    ∧ (∀ (α : Type) (es : List α), es.length = 101 →
         (sendAll eventChanCap ⟨[], 0⟩ es).queue = es.take 100
         ∧ (sendAll eventChanCap ⟨[], 0⟩ es).queue.length = 100
         ∧ (sendAll eventChanCap ⟨[], 0⟩ es).drops = 1) := by
  refine ⟨rfl, rfl, ?_, ?_⟩
  · intro α q e hq
    by_cases hlt : q.length < eventChanCap <;> simp [trySend, hlt] <;> omega
  · intro α es hlen
    obtain ⟨h1, h2⟩ := sendAll_spec eventChanCap es [] 0 (by simp)
    refine ⟨?_, ?_, ?_⟩
    · simpa using h1
    · rw [h1]
      simp [hlen, eventChanCap]
    · rw [h2]
      simp [hlen, eventChanCap]

/-- Claim C4 witness: 101 concrete events leave 100 retained and one drop
warning. -/
theorem pipeline_capacity_backpressure_witness :
    (sendAll eventChanCap (⟨[], 0⟩ : SendStats Nat) (List.replicate 101 7)).queue.length
      = 100
    ∧ (sendAll eventChanCap (⟨[], 0⟩ : SendStats Nat) (List.replicate 101 7)).drops = 1 := by
  have h := pipeline_capacity_backpressure.2.2.2 Nat (List.replicate 101 7) (by simp)
  exact ⟨h.2.1, h.2.2⟩

/-- An exclude-pattern match on the final segment forces
`shouldProcess` to false. -/
theorem shouldProcess_false_of_shouldExclude (p : String) (wd : WatchDir)
    (h : shouldExclude p wd = true) : shouldProcess p wd = false := by
  have hx : anyPatternMatches wd.Exclude (goBase p.data) = true := h
  simp [shouldProcess, hx]

/-- Claim C5 counterexample: with exclude=["tmp"], the poll pass over
`/r` containing the excluded directory `/r/tmp` with child
`/r/tmp/a.mp4` still visits the child and emits an event for it — the
excluded directory's subtree is not skipped during the full-tree pass. -/
theorem poll_pass_descends_into_excluded_dir :
    shouldExclude "/r/tmp" ⟨"/r", true, ["tmp"], [], "0644", "0755"⟩ = true
    ∧ (pollVisit ⟨"/r", true, ["tmp"], [], "0644", "0755"⟩ "/r"
        (FSNode.dir "r" [FSNode.dir "tmp" [FSNode.file "a.mp4"]])).2
      = ["/r", "/r/tmp/a.mp4"] := by
  constructor
  · decide
  · decide

/-- Claim C5 (amended): in `addWatch`'s registration walk an excluded
non-root directory is never registered and none of its descendants is
visited (the subtree is skipped via `SkipDir`); in the poll pass an
excluded directory is itself not emitted as an event, but its children
are still walked. -/
theorem excluded_dir_subtree (wd : WatchDir) (root p name : String)
    (children : List FSNode) (hroot : p ≠ root) (hex : shouldExclude p wd = true) :
    addWalkVisit wd root p (FSNode.dir name children) = ([p], [])
    ∧ pollVisit wd p (FSNode.dir name children)
        = (p :: (pollList wd p children).1, (pollList wd p children).2) := by
  have hsp := shouldProcess_false_of_shouldExclude p wd hex
  constructor
  · simp [addWalkVisit, hroot, hex]
  · simp [pollVisit, hsp]

/-- Claim C5 witness: the excluded directory `/r/tmp` is not registered
and its subtree is skipped by the registration walk. -/
theorem excluded_dir_subtree_witness :
    addWalkVisit ⟨"/r", true, ["tmp"], [], "0644", "0755"⟩ "/r" "/r/tmp"
      (FSNode.dir "tmp" [FSNode.file "a.mp4"]) = (["/r/tmp"], []) :=
  (excluded_dir_subtree ⟨"/r", true, ["tmp"], [], "0644", "0755"⟩ "/r" "/r/tmp" "tmp"
    [FSNode.file "a.mp4"] (by decide) (by decide)).1

/-- Claim C7 counterexample: when the underlying notification
registration (`fsWatcher.Add`) fails for the second WatchSpec, `Start`
returns a wrapped error and the system does not start at all — the
failure is not contained to that one WatchSpec. -/
theorem registration_failure_aborts_start :
    startWatches
      [⟨⟨"/a", false, [], [], "0644", "0755"⟩, StatResult.statOk, false⟩,
       ⟨⟨"/b", false, [], [], "0644", "0755"⟩, StatResult.statOk, true⟩]
      = Except.error "failed to add watch: add"
    ∧ systemStarted
        [⟨⟨"/a", false, [], [], "0644", "0755"⟩, StatResult.statOk, false⟩,
         ⟨⟨"/b", false, [], [], "0644", "0755"⟩, StatResult.statOk, true⟩]
      = false := by
  constructor
  · rfl
  · rfl

/-- Claim C7 (amended): only a non-existent watch path is a soft,
per-WatchSpec failure — `addWatch` logs a warning, registers nothing for
that spec, and `Start` continues with the remaining specs and launches
the system; any other registration failure (a stat error or a failing
underlying notification registration) makes `Start` return an error, so
the whole process fails to start. -/
theorem registration_missing_path_soft (dirs : List DirEnv)
    (h : ∀ d ∈ dirs, d.stat = StatResult.notExist ∨
         (d.stat = StatResult.statOk ∧ d.rootAddFails = false)) :
    startWatches dirs = Except.ok (dirs.map fun d =>
        if d.stat = StatResult.notExist then AddWatchOutcome.warnedMissing
        else AddWatchOutcome.watching)
    ∧ systemStarted dirs = true := by
  have hmain : startWatches dirs = Except.ok (dirs.map fun d =>
      if d.stat = StatResult.notExist then AddWatchOutcome.warnedMissing
      else AddWatchOutcome.watching) := by
    induction dirs with
    | nil => rfl
    | cons d rest ih =>
      have hd := h d (by simp)
      have hr := ih fun x hx => h x (by simp [hx])
      rcases hd with hne | ⟨hok, hnf⟩
      · simp [startWatches, addWatch, hne, hr]
      · simp [startWatches, addWatch, hok, hnf, hr]
  exact ⟨hmain, by simp [systemStarted, hmain]⟩

/-- Claim C7 witness: a missing first path is warned and skipped while
the second spec registers, and the system starts. -/
theorem registration_missing_path_soft_witness :
    startWatches
      [⟨⟨"/gone", false, [], [], "0644", "0755"⟩, StatResult.notExist, false⟩,
       ⟨⟨"/b", false, [], [], "0644", "0755"⟩, StatResult.statOk, false⟩]
      = Except.ok [AddWatchOutcome.warnedMissing, AddWatchOutcome.watching]
    ∧ systemStarted
        [⟨⟨"/gone", false, [], [], "0644", "0755"⟩, StatResult.notExist, false⟩,
         ⟨⟨"/b", false, [], [], "0644", "0755"⟩, StatResult.statOk, false⟩]
      = true :=
  registration_missing_path_soft
    [⟨⟨"/gone", false, [], [], "0644", "0755"⟩, StatResult.notExist, false⟩,
     ⟨⟨"/b", false, [], [], "0644", "0755"⟩, StatResult.statOk, false⟩]
    (by decide)

/-- Claim C8 counterexample: a configuration with poll interval 0 is not
accepted — `validate` rejects it with "poll_interval must be greater
than 0". -/
theorem pollInterval_zero_rejected :
    validate ⟨"info", 0, []⟩
      = Except.error "poll_interval must be greater than 0" := by
  rfl

/-- Claim C8 (amended): `Start` launches the periodic-trigger goroutine
exactly when the poll interval is greater than 0 (so an interval of 0
would start no polling loop), but configuration validation rejects any
interval ≤ 0, so an interval-0 configuration never reaches `Start`
through config loading. -/
theorem polling_started_iff_positive (c : KoanfConfig) :
    (pollingStarted c = true ↔ 0 < c.PollInterval)
    ∧ (c.PollInterval ≤ 0 →
        validate c = Except.error "poll_interval must be greater than 0") := by
  constructor
  · simp [pollingStarted]
  · intro h
    simp [validate, h]

/-- Claim C8 witness: a negative interval starts no polling and is
rejected by validation. -/
theorem polling_started_iff_positive_witness :
    pollingStarted ⟨"info", -3, []⟩ = false
    ∧ validate ⟨"info", -3, []⟩
        = Except.error "poll_interval must be greater than 0" := by
  constructor
  · cases hv : pollingStarted ⟨"info", -3, []⟩
    · rfl
    · exact absurd ((polling_started_iff_positive ⟨"info", -3, []⟩).1.1 hv) (by decide)
  · exact (polling_started_iff_positive ⟨"info", -3, []⟩).2 (by decide)

/-- Claim C9: `findWatchDir` returns the first configured WatchDir (in
configuration order) whose Path is a plain string prefix of the event
path — a prefix need not end at a separator boundary, so a "/data" spec
claims "/database/x" — and when no Path is a prefix the event is
silently discarded by `processEvents`. -/
theorem findWatchDir_first_plain_prefix :
    (∀ (dirs : List WatchDir) (path : String),
       findWatchDir dirs path = dirs.find? fun wd => hasPrefix path wd.Path)
    ∧ (∀ (dirs : List WatchDir) (path : String),
         findWatchDir dirs path = none → routeEvent dirs path = Disposition.discarded)
    ∧ findWatchDir [⟨"/data", true, [], [], "0644", "0755"⟩] "/database/x"
        = some ⟨"/data", true, [], [], "0644", "0755"⟩ := by
  refine ⟨?_, ?_, ?_⟩
  · intro dirs path
    induction dirs with
    | nil => rfl
    | cons wd rest ih =>
      by_cases h : hasPrefix path wd.Path = true
      · simp [findWatchDir, List.find?_cons_of_pos, h]
      · have hf : hasPrefix path wd.Path = false := by
          cases hv : hasPrefix path wd.Path
          · rfl
          · exact absurd hv h
        simp [findWatchDir, List.find?_cons_of_neg, hf, ih]
  · intro dirs path h
    simp [routeEvent, h]
  · decide

/-- Claim C9 witness: with no configured WatchDir, every event path is
discarded. -/
theorem findWatchDir_first_plain_prefix_witness :
    routeEvent [] "/x" = Disposition.discarded :=
  findWatchDir_first_plain_prefix.2.1 [] "/x" rfl

end Ownarr
